import Mathlib

/-!
Verification development for the AsthmaShield repository.

This file shallowly embeds the parts of the Python code base that the
checked properties are about:

* `backend/asthmashield_app/data_collection.py` — symptom severity scoring
  (`SymptomDataCollector._calculate_severity`);
* `backend/asthmashield_app/views.py` — the duplicated severity scoring
  (`SymptomReportView.calculate_severity`);
* `backend/train_model.py` — data augmentation (`augment_data`), the
  per-family training loop (`train_multiple_models`), model comparison and
  selection (`evaluate_models`) and the top-level flow (`train_model`);
* `backend/asthmashield_app/ml_model/model.py` — artifact loading
  (`load_model`) and prediction (`predict_asthma_risk`);
* `backend/asthmashield_app/ml_model/xai_explainer.py` — the explanation
  entry point (`get_xai_explanation`).

Python dictionaries over string keys are embedded as association lists
`List (String × _)`; the "is a mapping" side condition is expressed as
`Nodup` of the key list where a property needs it.  Machine floats are
embedded as rationals.  Randomness (row picks and Gaussian noise draws in
the data augmenter) is embedded by passing the drawn values in as explicit
function arguments, so theorems quantify over every outcome of the draws.
Filesystem state is embedded as a partial map from path names to stored
blobs; `joblib.load` on an absent path raises `FileNotFoundError`, embedded
as a typed error value.
-/

namespace AsthmaShield

/-- First-match lookup in an association list, the embedding of both Python
`dict` subscripting/`.get` on the literal dicts appearing in the sources and
the `key in dict` membership test (via `Option.isSome`). -/
def lookupKey {β : Type} (a : String) : List (String × β) → Option β
  | [] => none
  | (k, v) :: es => if a = k then some v else lookupKey a es

namespace SymptomDataCollector

/-- The `severity_map` dict literal in
`SymptomDataCollector._calculate_severity` (data_collection.py). -/
def severity_map : List (String × Nat) :=
  [("wheezing", 3), ("shortness_of_breath", 3), ("chest_tightness", 2),
   ("coughing", 2), ("difficulty_sleeping", 1)]

/-- The accumulation loop of `_calculate_severity`: for each
`(symptom, present)` entry, when `present` holds and the symptom is in
`severity_map`, its weight is added to `severity_score`. -/
def severityScore : List (String × Bool) → Nat
  | [] => 0
  | (symptom, present) :: rest =>
      (if present ∧ (lookupKey symptom severity_map).isSome
       then (lookupKey symptom severity_map).getD 0
       else 0) + severityScore rest

/-- `SymptomDataCollector._calculate_severity` (data_collection.py lines
69-89): sum the weights, then threshold at 5 and 3. -/
def calculate_severity (symptoms : List (String × Bool)) : String :=
  let severity_score := severityScore symptoms
  if 5 ≤ severity_score then "High"
  else if 3 ≤ severity_score then "Moderate"
  else "Low"

end SymptomDataCollector

namespace Views

/-- The `severity_map` dict literal in `SymptomReportView.calculate_severity`
(views.py) — a verbatim duplicate of the one in data_collection.py. -/
def severity_map : List (String × Nat) :=
  [("wheezing", 3), ("shortness_of_breath", 3), ("chest_tightness", 2),
   ("coughing", 2), ("difficulty_sleeping", 1)]

/-- The accumulation loop of `SymptomReportView.calculate_severity`
(views.py lines 223-243). -/
def severityScore : List (String × Bool) → Nat
  | [] => 0
  | (symptom, present) :: rest =>
      (if present ∧ (lookupKey symptom severity_map).isSome
       then (lookupKey symptom severity_map).getD 0
       else 0) + severityScore rest

/-- `SymptomReportView.calculate_severity` (views.py lines 223-243). -/
def calculate_severity (symptoms : List (String × Bool)) : String :=
  let severity_score := severityScore symptoms
  if 5 ≤ severity_score then "High"
  else if 3 ≤ severity_score then "Moderate"
  else "Low"

end Views

/-- Spec-side severity sum: for each `(name, weight)` entry of a weight map,
add `weight` exactly when the mapping marks `name` as present.  For a
genuine mapping (no duplicate keys) this is "the sum of the weights of the
present recognized indicators" of the specification. -/
def weightedLookupSum (wmap : List (String × Nat))
    (symptoms : List (String × Bool)) : Nat :=
  (wmap.map (fun nw => if lookupKey nw.1 symptoms = some true then nw.2 else 0)).sum

/-- Spec-side severity score for the recognized indicator weights of §4.1. -/
def specScore (symptoms : List (String × Bool)) : Nat :=
  weightedLookupSum SymptomDataCollector.severity_map symptoms

theorem lookupKey_eq_none {β : Type} (k : String) (l : List (String × β))
    (h : k ∉ l.map Prod.fst) : lookupKey k l = none := by
  induction l with
  | nil => rfl
  | cons p es ih =>
    obtain ⟨k', v⟩ := p
    simp only [List.map_cons, List.mem_cons] at h
    push_neg at h
    simp only [lookupKey, if_neg h.1]
    exact ih h.2

theorem weightedLookupSum_cons_not_mem (wmap : List (String × Nat)) (k : String)
    (v : Bool) (symptoms : List (String × Bool))
    (h : k ∉ wmap.map Prod.fst) :
    weightedLookupSum wmap ((k, v) :: symptoms) = weightedLookupSum wmap symptoms := by
  induction wmap with
  | nil => rfl
  | cons nw rest ih =>
    obtain ⟨n, w⟩ := nw
    simp only [List.map_cons, List.mem_cons] at h
    push_neg at h
    have hn : n ≠ k := fun hh => h.1 hh.symm
    simp only [weightedLookupSum, List.map_cons, List.sum_cons] at *
    rw [ih h.2]
    have : lookupKey n ((k, v) :: symptoms) = lookupKey n symptoms := by
      simp only [lookupKey, if_neg hn]
    rw [this]

theorem weightedLookupSum_cons (wmap : List (String × Nat)) (k : String) (v : Bool)
    (symptoms : List (String × Bool)) (hw : (wmap.map Prod.fst).Nodup)
    (hk : lookupKey k symptoms = none) :
    weightedLookupSum wmap ((k, v) :: symptoms) =
      (if v ∧ (lookupKey k wmap).isSome then (lookupKey k wmap).getD 0 else 0) +
        weightedLookupSum wmap symptoms := by
  induction wmap with
  | nil => simp [weightedLookupSum, lookupKey]
  | cons nw rest ih =>
    obtain ⟨n, w⟩ := nw
    simp only [List.map_cons, List.nodup_cons] at hw
    by_cases hnk : n = k
    · subst hnk
      have hrest : n ∉ rest.map Prod.fst := hw.1
      simp only [weightedLookupSum, List.map_cons, List.sum_cons]
      have h1 : lookupKey n ((n, v) :: symptoms) = some v := by
        simp [lookupKey]
      rw [h1]
      have h3 : weightedLookupSum rest ((n, v) :: symptoms) = weightedLookupSum rest symptoms :=
        weightedLookupSum_cons_not_mem rest n v symptoms hrest
      simp only [weightedLookupSum] at h3
      rw [h3]
      have h4 : lookupKey n ((n, w) :: rest) = some w := by simp [lookupKey]
      rw [h4]
      by_cases hv : v = true
      · subst hv
        simp [hk]
      · have hv' : v = false := by
          cases v
          · rfl
          · exact absurd rfl hv
        subst hv'
        simp [hk]
    · have hne : n ≠ k := hnk
      simp only [weightedLookupSum, List.map_cons, List.sum_cons]
      have h1 : lookupKey n ((k, v) :: symptoms) = lookupKey n symptoms := by
        simp only [lookupKey, if_neg hne]
      rw [h1]
      have h2 := ih hw.2
      simp only [weightedLookupSum] at h2
      rw [h2]
      have h4 : lookupKey k ((n, w) :: rest) = lookupKey k rest := by
        have : k ≠ n := fun hh => hne hh.symm
        simp only [lookupKey, if_neg this]
      rw [h4]
      omega

theorem severityScore_eq_specScore (symptoms : List (String × Bool))
    (hnd : (symptoms.map Prod.fst).Nodup) :
    SymptomDataCollector.severityScore symptoms = specScore symptoms := by
  induction symptoms with
  | nil => rfl
  | cons p rest ih =>
    obtain ⟨k, v⟩ := p
    simp only [List.map_cons, List.nodup_cons] at hnd
    have hk : lookupKey k rest = none := lookupKey_eq_none k rest hnd.1
    have hw : (SymptomDataCollector.severity_map.map Prod.fst).Nodup := by decide
    simp only [SymptomDataCollector.severityScore, specScore]
    rw [weightedLookupSum_cons SymptomDataCollector.severity_map k v rest hw hk]
    rw [ih hnd.2]
    rfl

/-- The thresholding tail of `_calculate_severity`, isolated as an
arithmetic fact about the three-way `if`/`elif`/`else`. -/
theorem tier_characterization (s : Nat) :
    ((if 5 ≤ s then "High" else if 3 ≤ s then "Moderate" else "Low") = "High" ↔ 5 ≤ s) ∧
    ((if 5 ≤ s then "High" else if 3 ≤ s then "Moderate" else "Low") = "Moderate" ↔ s = 3 ∨ s = 4) ∧
    ((if 5 ≤ s then "High" else if 3 ≤ s then "Moderate" else "Low") = "Low" ↔ s < 3) := by
  split_ifs with h5 h3 <;>
    refine ⟨?_, ?_, ?_⟩ <;> constructor <;> intro h <;>
      first
        | rfl
        | omega
        | (exfalso; revert h; decide)

/-- Python dict update `symptoms[k] = v` on the association-list embedding:
replace the binding of the first matching key, or append a fresh binding. -/
def setIndicator : List (String × Bool) → String → Bool → List (String × Bool)
  | [], k, v => [(k, v)]
  | (k', v') :: rest, k, v =>
      if k' = k then (k, v) :: rest else (k', v') :: setIndicator rest k v

/-- Numeric rank of a severity tier under the order Low < Moderate < High. -/
def severityRank (tier : String) : Nat :=
  if tier = "High" then 2 else if tier = "Moderate" then 1 else 0

theorem severityScore_le_setIndicator (symptoms : List (String × Bool))
    (k : String) :
    SymptomDataCollector.severityScore symptoms ≤
      SymptomDataCollector.severityScore (setIndicator symptoms k true) := by
  induction symptoms with
  | nil =>
    simp only [setIndicator, SymptomDataCollector.severityScore]
    exact Nat.zero_le _
  | cons p rest ih =>
    obtain ⟨k', v'⟩ := p
    simp only [setIndicator]
    by_cases hk : k' = k
    · subst hk
      simp only [if_pos rfl, SymptomDataCollector.severityScore]
      apply Nat.add_le_add_right
      by_cases hv : v' = true
      · subst hv; simp
      · have hv' : v' = false := by
          cases v'
          · rfl
          · exact absurd rfl hv
        subst hv'
        simp
    · simp only [if_neg hk, SymptomDataCollector.severityScore]
      exact Nat.add_le_add_left ih _

theorem tier_rank_mono (s t : Nat) (hst : s ≤ t) :
    severityRank (if 5 ≤ s then "High" else if 3 ≤ s then "Moderate" else "Low") ≤
      severityRank (if 5 ≤ t then "High" else if 3 ≤ t then "Moderate" else "Low") := by
  split_ifs <;> first | decide | (exfalso; omega)

theorem views_severityScore_eq (symptoms : List (String × Bool)) :
    SymptomDataCollector.severityScore symptoms = Views.severityScore symptoms := by
  induction symptoms with
  | nil => rfl
  | cons p rest ih =>
    obtain ⟨k, v⟩ := p
    simp only [SymptomDataCollector.severityScore, Views.severityScore]
    rw [ih]
    rfl

/-- C2: for every mapping of indicator names to booleans, the severity
function of the symptom data collector returns `High` exactly when the sum
of the weights of the present recognized indicators is at least 5,
`Moderate` exactly when that sum is 3 or 4, and `Low` exactly when it is
below 3; unrecognized indicator names contribute nothing (the function is
total, so no input causes an error). -/
theorem C2_severity_scoring (symptoms : List (String × Bool))
    (hnd : (symptoms.map Prod.fst).Nodup) :
    (SymptomDataCollector.calculate_severity symptoms = "High" ↔
      5 ≤ specScore symptoms) ∧
    (SymptomDataCollector.calculate_severity symptoms = "Moderate" ↔
      specScore symptoms = 3 ∨ specScore symptoms = 4) ∧
    (SymptomDataCollector.calculate_severity symptoms = "Low" ↔
      specScore symptoms < 3) := by
  have hs := severityScore_eq_specScore symptoms hnd
  have e1 : SymptomDataCollector.calculate_severity symptoms =
      if 5 ≤ SymptomDataCollector.severityScore symptoms then "High"
      else if 3 ≤ SymptomDataCollector.severityScore symptoms then "Moderate"
      else "Low" := rfl
  rw [e1, hs]
  exact tier_characterization (specScore symptoms)

/-- Witness for C2 at the two scenario inputs of the specification:
wheezing together with shortness of breath yields High, coughing alone
yields Low. -/
theorem C2_severity_scoring_witness :
    SymptomDataCollector.calculate_severity
        [("wheezing", true), ("shortness_of_breath", true)] = "High" ∧
    SymptomDataCollector.calculate_severity [("coughing", true)] = "Low" :=
  ⟨((C2_severity_scoring [("wheezing", true), ("shortness_of_breath", true)]
      (by decide)).1).mpr (by decide),
   ((C2_severity_scoring [("coughing", true)] (by decide)).2.2).mpr (by decide)⟩

/-- C7: the severity implementation in the symptom data collector and the
duplicated one in the web view class compute identical results on every
input mapping. -/
theorem C7_severity_implementations_agree (symptoms : List (String × Bool)) :
    SymptomDataCollector.calculate_severity symptoms =
      Views.calculate_severity symptoms := by
  have h := views_severityScore_eq symptoms
  have e1 : SymptomDataCollector.calculate_severity symptoms =
      if 5 ≤ SymptomDataCollector.severityScore symptoms then "High"
      else if 3 ≤ SymptomDataCollector.severityScore symptoms then "Moderate"
      else "Low" := rfl
  have e2 : Views.calculate_severity symptoms =
      if 5 ≤ Views.severityScore symptoms then "High"
      else if 3 ≤ Views.severityScore symptoms then "Moderate"
      else "Low" := rfl
  rw [e1, e2, h]

/-- C9: the severity function is monotone — setting any recognized indicator
that is absent or false to true never decreases the returned tier under the
order Low < Moderate < High — and deterministic. -/
theorem C9_severity_monotone_deterministic :
    (∀ (symptoms : List (String × Bool)) (k : String),
        k ∈ SymptomDataCollector.severity_map.map Prod.fst →
        (lookupKey k symptoms = none ∨ lookupKey k symptoms = some false) →
        severityRank (SymptomDataCollector.calculate_severity symptoms) ≤
          severityRank
            (SymptomDataCollector.calculate_severity (setIndicator symptoms k true))) ∧
    (∀ s t : List (String × Bool), s = t →
        SymptomDataCollector.calculate_severity s =
          SymptomDataCollector.calculate_severity t) := by
  constructor
  · intro symptoms k _ _
    exact tier_rank_mono _ _ (severityScore_le_setIndicator symptoms k)
  · intro s t h
    rw [h]

/-- Witness for C9: adding wheezing to a report that only mentions coughing
does not decrease the tier, and the function is deterministic on the empty
report. -/
theorem C9_severity_monotone_deterministic_witness :
    severityRank (SymptomDataCollector.calculate_severity [("coughing", true)]) ≤
      severityRank (SymptomDataCollector.calculate_severity
        (setIndicator [("coughing", true)] "wheezing" true)) ∧
    SymptomDataCollector.calculate_severity [] =
      SymptomDataCollector.calculate_severity [] :=
  ⟨C9_severity_monotone_deterministic.1 [("coughing", true)] "wheezing"
      (by decide) (Or.inl (by decide)),
   C9_severity_monotone_deterministic.2 [] [] rfl⟩

/-! ### Multi-model training and selection (`backend/train_model.py`) -/

/-- The per-family evaluation record built in `train_multiple_models`
(train_model.py lines 146-153): held-out test accuracy and the mean of the
5-fold cross-validation scores.  Accuracies are embedded as rationals. -/
structure ModelResult where
  accuracy : ℚ
  cv_mean : ℚ
deriving DecidableEq

/-- The scan performed by
`sorted(results.items(), key=lambda x: x[1].accuracy, reverse=True)[0]`:
Python `sorted` is stable, and a stable descending sort followed by taking
the head returns the first element attaining the maximal accuracy, so the
selection is embedded as a left fold that replaces the current best only on
a strictly greater accuracy. -/
def evalGo (best : String × ModelResult) :
    List (String × ModelResult) → String × ModelResult
  | [] => best
  | r :: rs => evalGo (if best.2.accuracy < r.2.accuracy then r else best) rs

/-- `evaluate_models` (train_model.py lines 164-190): pick the entry of the
results mapping with the highest test accuracy; the results dict iterates in
insertion order, which is the order families were trained in. -/
def evaluate_models : List (String × ModelResult) → Option (String × ModelResult)
  | [] => none
  | r :: rs => some (evalGo r rs)

/-- `train_multiple_models` (train_model.py lines 80-162), abstracted over
the outcome of each family's grid search: a family whose search raises
(`except Exception: continue`, lines 158-160) is embedded as `none` and is
skipped; a successful family contributes its evaluation record. -/
def train_multiple_models (outcomes : List (String × Option ModelResult)) :
    List (String × ModelResult) :=
  outcomes.filterMap (fun nr => nr.2.map (fun r => (nr.1, r)))

/-- The tail of `train_model` (train_model.py lines 274-281): when no family
trained successfully the function prints a message and returns
`(None, None)` — embedded as `none`; otherwise the best family is selected
by `evaluate_models`. -/
def train_model (outcomes : List (String × Option ModelResult)) :
    Option (String × ModelResult) :=
  let results := train_multiple_models outcomes
  if results.isEmpty then none
  else evaluate_models results

theorem evalGo_mem (best : String × ModelResult) (rs : List (String × ModelResult)) :
    evalGo best rs ∈ best :: rs := by
  induction rs generalizing best with
  | nil => simp [evalGo]
  | cons r rs ih =>
    simp only [evalGo]
    have h := ih (if best.2.accuracy < r.2.accuracy then r else best)
    rcases List.mem_cons.mp h with h1 | h1
    · rw [h1]
      split_ifs
      · exact List.mem_cons_of_mem _ (List.mem_cons_self _ _)
      · exact List.mem_cons_self _ _
    · exact List.mem_cons_of_mem _ (List.mem_cons_of_mem _ h1)

theorem evalGo_max (best : String × ModelResult) (rs : List (String × ModelResult)) :
    ∀ x ∈ best :: rs, x.2.accuracy ≤ (evalGo best rs).2.accuracy := by
  induction rs generalizing best with
  | nil =>
    intro x hx
    rcases List.mem_cons.mp hx with h | h
    · rw [h]; exact le_refl _
    · simp at h
  | cons r rs ih =>
    intro x hx
    have hbest : best.2.accuracy ≤
        (if best.2.accuracy < r.2.accuracy then r else best).2.accuracy := by
      split_ifs with h
      · exact le_of_lt h
      · exact le_refl _
    have hr : r.2.accuracy ≤
        (if best.2.accuracy < r.2.accuracy then r else best).2.accuracy := by
      split_ifs with h
      · exact le_refl _
      · exact le_of_not_lt h
    have hgo := ih (if best.2.accuracy < r.2.accuracy then r else best)
    have hhead := hgo _ (List.mem_cons_self _ _)
    show x.2.accuracy ≤ (evalGo (if best.2.accuracy < r.2.accuracy then r else best) rs).2.accuracy
    rcases List.mem_cons.mp hx with h1 | h1
    · rw [h1]; exact le_trans hbest hhead
    · rcases List.mem_cons.mp h1 with h2 | h2
      · rw [h2]; exact le_trans hr hhead
      · exact hgo x (List.mem_cons_of_mem _ h2)

theorem evalGo_split (best : String × ModelResult) (rs : List (String × ModelResult)) :
    ∃ pre post, best :: rs = pre ++ evalGo best rs :: post ∧
      ∀ x ∈ pre, x.2.accuracy < (evalGo best rs).2.accuracy := by
  induction rs generalizing best with
  | nil => exact ⟨[], [], rfl, by simp⟩
  | cons r rs ih =>
    by_cases hlt : best.2.accuracy < r.2.accuracy
    · have hgo : evalGo best (r :: rs) = evalGo r rs := by
        simp only [evalGo, if_pos hlt]
      obtain ⟨pre, post, heq, hstrict⟩ := ih r
      have hrle : r.2.accuracy ≤ (evalGo r rs).2.accuracy :=
        evalGo_max r rs r (List.mem_cons_self _ _)
      refine ⟨best :: pre, post, ?_, ?_⟩
      · rw [hgo, List.cons_append, ← heq]
      · intro x hx
        rw [hgo]
        rcases List.mem_cons.mp hx with h | h
        · rw [h]; exact lt_of_lt_of_le hlt hrle
        · exact hstrict x h
    · have hgo : evalGo best (r :: rs) = evalGo best rs := by
        simp only [evalGo, if_neg hlt]
      obtain ⟨pre, post, heq, hstrict⟩ := ih best
      cases pre with
      | nil =>
        simp only [List.nil_append] at heq
        obtain ⟨h1, h2⟩ := List.cons_eq_cons.mp heq
        refine ⟨[], r :: rs, ?_, by simp⟩
        rw [List.nil_append, hgo, ← h1]
      | cons p pre₁ =>
        rw [List.cons_append] at heq
        obtain ⟨h1, h2⟩ := List.cons_eq_cons.mp heq
        have hbest : best.2.accuracy < (evalGo best rs).2.accuracy := by
          have hp := hstrict p (List.mem_cons_self _ _)
          rw [← h1] at hp
          exact hp
        refine ⟨best :: r :: pre₁, post, ?_, ?_⟩
        · rw [hgo]
          simp only [List.cons_append]
          rw [← h2]
        · intro x hx
          rw [hgo]
          rcases List.mem_cons.mp hx with h | h
          · rw [h]; exact hbest
          · rcases List.mem_cons.mp h with h3 | h3
            · rw [h3]
              exact lt_of_le_of_lt (le_of_not_lt hlt) hbest
            · exact hstrict x (List.mem_cons_of_mem _ h3)

theorem first_max_unique :
    ∀ (p₁ l p₂ : List (String × ModelResult)) (b₁ b₂ : String × ModelResult)
      (q₁ q₂ : List (String × ModelResult)),
      l = p₁ ++ b₁ :: q₁ → l = p₂ ++ b₂ :: q₂ →
      (∀ x ∈ p₁, x.2.accuracy < b₁.2.accuracy) →
      (∀ x ∈ p₂, x.2.accuracy < b₂.2.accuracy) →
      (∀ x ∈ l, x.2.accuracy ≤ b₁.2.accuracy) →
      (∀ x ∈ l, x.2.accuracy ≤ b₂.2.accuracy) →
      b₁ = b₂ := by
  intro p₁
  induction p₁ with
  | nil =>
    intro l p₂ b₁ b₂ q₁ q₂ h₁ h₂ s₁ s₂ m₁ m₂
    simp only [List.nil_append] at h₁
    cases p₂ with
    | nil =>
      simp only [List.nil_append] at h₂
      have e := h₁.symm.trans h₂
      exact (List.cons_eq_cons.mp e).1
    | cons c p₂' =>
      exfalso
      rw [List.cons_append] at h₂
      have e := h₁.symm.trans h₂
      obtain ⟨e1, e2⟩ := List.cons_eq_cons.mp e
      have hlt : b₁.2.accuracy < b₂.2.accuracy :=
        s₂ b₁ (by rw [e1]; exact List.mem_cons_self _ _)
      have hle : b₂.2.accuracy ≤ b₁.2.accuracy :=
        m₁ b₂ (by
          rw [h₂]
          exact List.mem_cons_of_mem _
            (List.mem_append_right _ (List.mem_cons_self _ _)))
      exact absurd hlt (not_lt.mpr hle)
  | cons a p₁' ih =>
    intro l p₂ b₁ b₂ q₁ q₂ h₁ h₂ s₁ s₂ m₁ m₂
    rw [List.cons_append] at h₁
    cases p₂ with
    | nil =>
      exfalso
      simp only [List.nil_append] at h₂
      have e := h₂.symm.trans h₁
      obtain ⟨e1, e2⟩ := List.cons_eq_cons.mp e
      have hlt : b₂.2.accuracy < b₁.2.accuracy :=
        s₁ b₂ (by rw [e1]; exact List.mem_cons_self _ _)
      have hle : b₁.2.accuracy ≤ b₂.2.accuracy :=
        m₂ b₁ (by
          rw [h₁]
          exact List.mem_cons_of_mem _
            (List.mem_append_right _ (List.mem_cons_self _ _)))
      exact absurd hlt (not_lt.mpr hle)
    | cons c p₂' =>
      rw [List.cons_append] at h₂
      have e := h₁.symm.trans h₂
      obtain ⟨e1, e2⟩ := List.cons_eq_cons.mp e
      refine ih (p₁' ++ b₁ :: q₁) p₂' b₁ b₂ q₁ q₂ rfl e2 ?_ ?_ ?_ ?_
      · exact fun x hx => s₁ x (List.mem_cons_of_mem _ hx)
      · exact fun x hx => s₂ x (List.mem_cons_of_mem _ hx)
      · exact fun x hx => m₁ x (by rw [h₁]; exact List.mem_cons_of_mem _ hx)
      · exact fun x hx => m₂ x (by rw [h₁]; exact List.mem_cons_of_mem _ hx)

/-- C1 counterexample: two families with equal held-out test accuracy; the
later one has the strictly higher mean cross-validation score, yet the code
selects the earlier one (stable sort on accuracy alone), so ties are not
broken by cross-validation score. -/
theorem C1_selection_counterexample :
    evaluate_models
        [("Random Forest", ⟨1, 0⟩), ("SVM", ⟨1, 1⟩)] =
      some ("Random Forest", ⟨1, 0⟩) ∧
    (⟨1, 0⟩ : ModelResult).accuracy = (⟨1, 1⟩ : ModelResult).accuracy ∧
    (⟨1, 0⟩ : ModelResult).cv_mean < (⟨1, 1⟩ : ModelResult).cv_mean ∧
    evaluate_models
        [("Random Forest", ⟨1, 0⟩), ("SVM", ⟨1, 1⟩)] ≠
      some ("SVM", ⟨1, 1⟩) := by
  refine ⟨by decide, by decide, by decide, by decide⟩

/-- C1 amended: the trainer selects the family with the highest held-out
test accuracy, and when several families attain that accuracy the one that
comes first in the evaluation (dict insertion) order is selected — the mean
cross-validation score is never consulted.  Stated as a complete
characterization: the selection returns `best` exactly when the results
list splits as `pre ++ best :: post` with every entry of `pre` of strictly
smaller accuracy (so no earlier family ties with `best`) and no entry of
the whole list exceeding `best` — i.e. `best` is the first entry attaining
the maximal accuracy. -/
theorem C1_selection_amended (results : List (String × ModelResult))
    (best : String × ModelResult) :
    evaluate_models results = some best ↔
      (∃ pre post, results = pre ++ best :: post ∧
          ∀ x ∈ pre, x.2.accuracy < best.2.accuracy) ∧
      ∀ x ∈ results, x.2.accuracy ≤ best.2.accuracy := by
  constructor
  · intro h
    cases results with
    | nil => cases h
    | cons r rs =>
      have hb : evalGo r rs = best := Option.some.inj h
      obtain ⟨pre, post, heq, hstrict⟩ := evalGo_split r rs
      rw [hb] at heq hstrict
      refine ⟨⟨pre, post, heq, hstrict⟩, ?_⟩
      rw [← hb]
      exact evalGo_max r rs
  · rintro ⟨⟨pre, post, heq, hstrict⟩, hmax⟩
    cases results with
    | nil => simp at heq
    | cons r rs =>
      obtain ⟨pre₀, post₀, heq₀, hstrict₀⟩ := evalGo_split r rs
      have huniq : evalGo r rs = best :=
        first_max_unique pre₀ (r :: rs) pre (evalGo r rs) best post₀ post
          heq₀ heq hstrict₀ hstrict (evalGo_max r rs) hmax
      show some (evalGo r rs) = some best
      rw [huniq]

/-- Witness for C1 amended: Random Forest below, then Logistic Regression
and Gradient Boosting tied at the maximal accuracy; the tie goes to
Logistic Regression, first in insertion order, even though Gradient
Boosting has the higher cross-validation mean. -/
theorem C1_selection_amended_witness :
    evaluate_models
        [("Random Forest", ⟨0, 0⟩), ("Logistic Regression", ⟨1, 0⟩),
         ("Gradient Boosting", ⟨1, 1⟩)] =
      some ("Logistic Regression", ⟨1, 0⟩) :=
  (C1_selection_amended
      [("Random Forest", ⟨0, 0⟩), ("Logistic Regression", ⟨1, 0⟩),
       ("Gradient Boosting", ⟨1, 1⟩)]
      ("Logistic Regression", ⟨1, 0⟩)).mpr
    ⟨⟨[("Random Forest", ⟨0, 0⟩)], [("Gradient Boosting", ⟨1, 1⟩)], rfl,
      by decide⟩, by decide⟩

theorem mem_train_multiple_models (outcomes : List (String × Option ModelResult))
    (name : String) (r : ModelResult) :
    (name, r) ∈ train_multiple_models outcomes ↔ (name, some r) ∈ outcomes := by
  simp only [train_multiple_models, List.mem_filterMap]
  constructor
  · rintro ⟨⟨n, o⟩, ho, heq⟩
    obtain ⟨a, rfl, hfa⟩ := Option.map_eq_some'.mp heq
    cases hfa
    exact ho
  · intro h
    exact ⟨(name, some r), h, rfl⟩

/-- C6 counterexample: when every candidate family's grid search raises, the
training operation completes normally and returns an absent model
(`return None, None`) — no typed TrainingFailure is raised. -/
theorem C6_training_failure_counterexample :
    train_model [("Random Forest", none), ("Logistic Regression", none),
                 ("Gradient Boosting", none), ("SVM", none)] = none := by
  rfl

/-- C6 amended: a family whose grid search raises is excluded and training
proceeds with the remaining families (any surviving family yields a selected
model); but when every family fails the operation does not raise a typed
TrainingFailure — it completes normally returning an absent model. -/
theorem C6_training_failure_amended :
    (∀ (outcomes : List (String × Option ModelResult)) (name : String) (r : ModelResult),
        (name, r) ∈ train_multiple_models outcomes ↔ (name, some r) ∈ outcomes) ∧
    (∀ outcomes : List (String × Option ModelResult),
        (∀ x ∈ outcomes, x.2 = none) → train_model outcomes = none) ∧
    (∀ (outcomes : List (String × Option ModelResult)) (name : String) (r : ModelResult),
        (name, some r) ∈ outcomes → ∃ b, train_model outcomes = some b) := by
  refine ⟨mem_train_multiple_models, ?_, ?_⟩
  · intro outcomes h
    have hnil : train_multiple_models outcomes = [] := by
      rw [train_multiple_models, List.filterMap_eq_nil_iff]
      intro a ha
      rw [h a ha]
      rfl
    simp [train_model, hnil]
  · intro outcomes name r h
    have hmem : (name, r) ∈ train_multiple_models outcomes :=
      (mem_train_multiple_models outcomes name r).mpr h
    cases hres : train_multiple_models outcomes with
    | nil => rw [hres] at hmem; cases hmem
    | cons hd tl =>
      refine ⟨evalGo hd tl, ?_⟩
      simp [train_model, hres, evaluate_models]

/-- Witness for C6 amended: with Random Forest failing and SVM succeeding,
training proceeds and selects a model; with both failing it returns none. -/
theorem C6_training_failure_amended_witness :
    (∃ b, train_model [("Random Forest", none), ("SVM", some ⟨1, 1⟩)] = some b) ∧
    train_model [("Random Forest", none), ("SVM", none)] = none :=
  ⟨C6_training_failure_amended.2.2 [("Random Forest", none), ("SVM", some ⟨1, 1⟩)]
      "SVM" ⟨1, 1⟩ (by decide),
   C6_training_failure_amended.2.1 [("Random Forest", none), ("SVM", none)]
      (by decide)⟩

/-! ### Data augmentation (`augment_data`, train_model.py lines 43-78) -/

/-- One row of the training table: the ten feature columns plus the encoded
target label appended by `augment_data`. -/
structure Sample where
  pm25 : ℚ
  pm10 : ℚ
  temperature : ℚ
  humidity : ℚ
  pollen_level : ℚ
  wind_speed : ℚ
  pressure : ℚ
  patient_age : ℚ
  patient_history_severe_attacks : ℚ
  medication_adherence : ℚ
  target : Nat
deriving DecidableEq

instance : Inhabited Sample := ⟨⟨0, 0, 0, 0, 0, 0, 0, 0, 0, 0, 0⟩⟩

/-- One iteration body of the augmentation loop (train_model.py lines
52-66): add the drawn noise to every feature column (`noise c` is the value
drawn from `np.random.normal(0, 0.1 * abs(value))` for column `c`,
abstracted as an arbitrary rational — a superset of the actual support),
then clamp the physically bounded fields.  The target label is copied
unchanged. -/
def perturb (s : Sample) (noise : Nat → ℚ) : Sample :=
  let s1 : Sample :=
    { s with
      pm25 := s.pm25 + noise 0,
      pm10 := s.pm10 + noise 1,
      temperature := s.temperature + noise 2,
      humidity := s.humidity + noise 3,
      pollen_level := s.pollen_level + noise 4,
      wind_speed := s.wind_speed + noise 5,
      pressure := s.pressure + noise 6,
      patient_age := s.patient_age + noise 7,
      patient_history_severe_attacks := s.patient_history_severe_attacks + noise 8,
      medication_adherence := s.medication_adherence + noise 9 }
  { s1 with
    pm25 := max 0 s1.pm25,
    pm10 := max 0 s1.pm10,
    humidity := max 0 (min 100 s1.humidity),
    medication_adherence := max 0 (min 1 s1.medication_adherence) }

/-- `augment_data` (train_model.py lines 43-78).  Each iteration picks a
source row (`np.random.randint(0, len(df))`; `pick i` is the drawn index),
perturbs it, and appends it; the combined table is the original rows
followed by the synthetic ones.  On an empty table with at least one
iteration requested, `np.random.randint(0, 0)` raises `ValueError`,
embedded as `none`. -/
def augment_data (rows : List Sample) (pick : Nat → Nat) (noise : Nat → Nat → ℚ)
    (n_augment : Nat) : Option (List Sample) :=
  if rows.isEmpty ∧ n_augment ≠ 0 then none
  else
    some (rows ++ (List.range n_augment).map
      (fun i => perturb (rows.getD (pick i) default) (noise i)))

theorem perturb_bounds (s : Sample) (noise : Nat → ℚ) :
    0 ≤ (perturb s noise).pm25 ∧ 0 ≤ (perturb s noise).pm10 ∧
    0 ≤ (perturb s noise).humidity ∧ (perturb s noise).humidity ≤ 100 ∧
    0 ≤ (perturb s noise).medication_adherence ∧
      (perturb s noise).medication_adherence ≤ 1 := by
  refine ⟨le_max_left 0 _, le_max_left 0 _, le_max_left 0 _, ?_, le_max_left 0 _, ?_⟩
  · exact max_le (by norm_num) (min_le_left _ _)
  · exact max_le (by norm_num) (min_le_left _ _)

/-- C5 counterexample: on an empty sample table with one synthetic row
requested, `augment_data` raises (`np.random.randint(0, 0)` is a
`ValueError`) instead of returning a table of length 0 + 1. -/
theorem C5_augmentation_counterexample :
    augment_data [] (fun _ => 0) (fun _ _ => 0) 1 = none := rfl

/-- C5 amended: for every non-empty sample table and every requested count,
augmentation returns the original rows followed by exactly `n_augment`
synthetic rows — so `len(samples) + n` rows in total — and every synthetic
row satisfies the physical bounds, for every outcome of the random row
picks and noise draws.  (On an empty table with `n ≥ 1` the operation
raises instead.) -/
theorem C5_augmentation_amended (rows : List Sample) (pick : Nat → Nat)
    (noise : Nat → Nat → ℚ) (n_augment : Nat) (hne : rows ≠ []) :
    ∃ synth : List Sample,
      augment_data rows pick noise n_augment = some (rows ++ synth) ∧
      (rows ++ synth).length = rows.length + n_augment ∧
      ∀ r ∈ synth,
        0 ≤ r.pm25 ∧ 0 ≤ r.pm10 ∧ 0 ≤ r.humidity ∧ r.humidity ≤ 100 ∧
        0 ≤ r.medication_adherence ∧ r.medication_adherence ≤ 1 := by
  have hie : rows.isEmpty = false := by
    cases rows
    · exact absurd rfl hne
    · rfl
  refine ⟨(List.range n_augment).map
      (fun i => perturb (rows.getD (pick i) default) (noise i)), ?_, ?_, ?_⟩
  · rw [augment_data, if_neg (by simp [hie])]
  · simp
  · intro r hr
    simp only [List.mem_map] at hr
    obtain ⟨i, _, rfl⟩ := hr
    exact perturb_bounds _ _

/-- A concrete sample row used by the C5 witness. -/
def sampleW : Sample := ⟨1, 1, 1, 50, 1, 1, 1, 1, 1, 1, 0⟩

/-- Witness for C5 amended: a one-row table with one synthetic row requested
under a noise draw of -200 on every column, which exercises the clamps. -/
theorem C5_augmentation_amended_witness :
    ∃ synth : List Sample,
      augment_data [sampleW] (fun _ => 0) (fun _ _ => -200) 1 =
        some ([sampleW] ++ synth) ∧
      ([sampleW] ++ synth).length = 1 + 1 ∧
      ∀ r ∈ synth,
        0 ≤ r.pm25 ∧ 0 ≤ r.pm10 ∧ 0 ≤ r.humidity ∧ r.humidity ≤ 100 ∧
        0 ≤ r.medication_adherence ∧ r.medication_adherence ≤ 1 :=
  C5_augmentation_amended [sampleW] (fun _ => 0) (fun _ _ => -200) 1
    (List.cons_ne_nil _ _)

/-! ### Model registry (`load_model`, ml_model/model.py lines 9-31)

Filesystem state is embedded as a partial map from path names (relative to
the `ml_model` directory) to stored blobs; blob contents are abstract. -/

/-- `FileNotFoundError`, the typed error that `joblib.load` raises on an
absent file and that `load_model` re-raises. -/
inductive LoadError
  | fileNotFound (path : String)
deriving DecidableEq

/-- The name mangling `model_type.lower().replace(" ", "_") + "_model.pkl"`
of `load_model`; since the pattern is the single character `" "`, the
lower-and-replace composition is a character map. -/
def model_filename (model_type : String) : String :=
  String.mk (model_type.data.map (fun c => if c = ' ' then '_' else c.toLower))
    ++ "_model.pkl"

/-- The hard-coded fallback artifact of `load_model` (line 20). -/
def default_model_file : String := "random_forest_model.pkl"

/-- The co-located label-encoder artifact (line 22). -/
def encoder_file : String := "label_encoder.pkl"

/-- The co-located feature-column-order artifact (line 23). -/
def feature_file : String := "feature_columns.pkl"

/-- `joblib.load`: the blob stored at the path, or `FileNotFoundError`. -/
def joblib_load {α : Type} (fs : String → Option α) (path : String) :
    Except LoadError α :=
  match fs path with
  | some b => Except.ok b
  | none => Except.error (LoadError.fileNotFound path)

/-- The path resolution of `load_model` lines 14-20: use the named model
file when `os.path.exists` says it is there, else fall back to the default
Random Forest artifact. -/
def resolved_model_path {α : Type} (fs : String → Option α)
    (model_type : String) : String :=
  if (fs (model_filename model_type)).isSome then model_filename model_type
  else default_model_file

/-- `load_model` (ml_model/model.py lines 9-31): resolve the model path,
then load model, label encoder and feature columns in that order; a
`FileNotFoundError` from any of the three loads is re-raised typed. -/
def load_model {α : Type} (fs : String → Option α) (model_type : String) :
    Except LoadError (α × α × α) :=
  match joblib_load fs (resolved_model_path fs model_type) with
  | Except.error e => Except.error e
  | Except.ok model =>
    match joblib_load fs encoder_file with
    | Except.error e => Except.error e
    | Except.ok encoder =>
      match joblib_load fs feature_file with
      | Except.error e => Except.error e
      | Except.ok cols => Except.ok (model, encoder, cols)

/-- A filesystem holding only a named SVM model artifact, with no encoder
and no feature-column artifact. -/
def fsOnlyModel : String → Option Nat :=
  fun p => if p = "svm_model.pkl" then some 0 else none

/-- C8 counterexample: the named model artifact exists, yet `load` fails
(with `FileNotFoundError` on the encoder) instead of returning the model,
encoder and column order together, because the co-located encoder artifact
is absent. -/
theorem C8_load_counterexample :
    (fsOnlyModel (model_filename "svm")).isSome = true ∧
    load_model fsOnlyModel "svm" =
      Except.error (LoadError.fileNotFound "label_encoder.pkl") := by
  exact ⟨rfl, rfl⟩

/-- C8 amended: `load` resolves the named artifact, falling back to the
default Random Forest artifact when the named one is absent; it returns the
model, label encoder and feature-column order together if and only if the
resolved model file, the encoder file and the columns file are all present,
and fails with the typed `FileNotFoundError` if and only if any of the
three is absent — even when the named model artifact itself exists. -/
theorem C8_load_amended {α : Type} (fs : String → Option α) (model_type : String) :
    (∀ m e c, load_model fs model_type = Except.ok (m, e, c) ↔
        fs (resolved_model_path fs model_type) = some m ∧
        fs encoder_file = some e ∧ fs feature_file = some c) ∧
    ((∃ err, load_model fs model_type = Except.error err) ↔
        fs (resolved_model_path fs model_type) = none ∨
        fs encoder_file = none ∨ fs feature_file = none) ∧
    ((fs (model_filename model_type)).isSome = false →
        resolved_model_path fs model_type = default_model_file) := by
  refine ⟨?_, ?_, ?_⟩
  · intro m e c
    rcases h1 : fs (resolved_model_path fs model_type) with _ | m0 <;>
      rcases h2 : fs encoder_file with _ | e0 <;>
        rcases h3 : fs feature_file with _ | c0 <;>
          simp [load_model, joblib_load, h1, h2, h3, and_assoc]
  · rcases h1 : fs (resolved_model_path fs model_type) with _ | m0 <;>
      rcases h2 : fs encoder_file with _ | e0 <;>
        rcases h3 : fs feature_file with _ | c0 <;>
          simp [load_model, joblib_load, h1, h2, h3]
  · intro h
    rw [resolved_model_path, h]
    rfl

/-- A filesystem holding the default model, encoder and column artifacts. -/
def fsAllArtifacts : String → Option Nat :=
  fun p =>
    if p = "random_forest_model.pkl" then some 0
    else if p = "label_encoder.pkl" then some 1
    else if p = "feature_columns.pkl" then some 2
    else none

/-- Witness for C8 amended: loading `best` falls back to the Random Forest
artifact and returns all three artifacts together. -/
theorem C8_load_amended_witness :
    load_model fsAllArtifacts "best" = Except.ok (0, 1, 2) :=
  ((C8_load_amended fsAllArtifacts "best").1 0 1 2).mpr ⟨by decide, rfl, rfl⟩

/-! ### Prediction (`predict_asthma_risk`, ml_model/model.py lines 33-84) -/

/-- The loaded classifier pipeline, abstracted by its capabilities: the
number of features it was fit on (sklearn validates every call against it),
its encoded-class prediction function, and its probability function when
`predict_proba` exists. -/
structure Classifier where
  nFeaturesIn : Nat
  predictIdx : List ℚ → Nat
  predictProba : Option (List ℚ → List ℚ)

/-- The result dict built by `predict_asthma_risk` lines 62-66. -/
structure PredResult where
  risk_level : String
  confidence : Option ℚ
  probabilities : Option (List (String × ℚ))
deriving DecidableEq

/-- Prediction failures.  `generic` embeds the blanket
`raise Exception("Error during prediction: " + str(e))` of lines 83-84;
`featureMismatch` is the typed error of the specification taxonomy (§7),
included so the claim is statable — the code never constructs it. -/
inductive PredictError
  | generic (msg : String)
  | featureMismatch

/-- `predict_asthma_risk` (ml_model/model.py lines 33-84), with the ten
scalar arguments generalized to the feature list they are immediately
packed into (line 42).  sklearn validates the feature count against the
count fixed at fit time and raises `ValueError` on mismatch; the blanket
`except Exception` handler re-raises it as a generic `Exception` with the
"Error during prediction" prefix.  On a valid input the encoded prediction
is decoded through the label-encoder classes, confidence is the maximal
probability when `predict_proba` exists, and the probability dict zips the
classes with the probability vector. -/
def predict_asthma_risk (clf : Classifier) (classes : List String)
    (features : List ℚ) : Except PredictError PredResult :=
  if features.length ≠ clf.nFeaturesIn then
    Except.error
      (PredictError.generic "Error during prediction: feature shape mismatch")
  else
    let idx := clf.predictIdx features
    let probs := clf.predictProba.map (fun f => f features)
    Except.ok
      { risk_level := classes.getD idx "",
        confidence := probs.map (fun p => p.foldl max 0),
        probabilities := probs.map (fun p => classes.zip p) }

/-- The classifier used by the C3 counterexample and witness: fit on the
ten persisted feature columns. -/
def clfW : Classifier := ⟨10, fun _ => 0, none⟩

/-- C3 counterexample: a nine-element feature vector makes the prediction
fail with the generic wrapped `Exception`, which is not the typed
`FeatureMismatch` failure the claim requires. -/
theorem C3_feature_mismatch_counterexample :
    predict_asthma_risk clfW ["High", "Low", "Moderate"]
        [0, 0, 0, 0, 0, 0, 0, 0, 0] =
      Except.error
        (PredictError.generic "Error during prediction: feature shape mismatch") ∧
    (Except.error
        (PredictError.generic "Error during prediction: feature shape mismatch") :
      Except PredictError PredResult) ≠
      Except.error PredictError.featureMismatch := by
  constructor
  · rfl
  · intro h
    simp at h

/-- C3 amended: for every feature vector whose length differs from the
persisted feature-column count (10), prediction fails — never a silent
wrong prediction — but with the generic wrapped `Exception`, not with a
typed `FeatureMismatch` (no such type exists in the code). -/
theorem C3_feature_mismatch_amended (clf : Classifier) (classes : List String)
    (features : List ℚ) (hart : clf.nFeaturesIn = 10)
    (hlen : features.length ≠ 10) :
    ∃ msg, predict_asthma_risk clf classes features =
      Except.error (PredictError.generic msg) := by
  have hc : features.length ≠ clf.nFeaturesIn := by rw [hart]; exact hlen
  refine ⟨"Error during prediction: feature shape mismatch", ?_⟩
  unfold predict_asthma_risk
  rw [if_pos hc]

/-- Witness for C3 amended at a concrete nine-element vector. -/
theorem C3_feature_mismatch_amended_witness :
    ∃ msg, predict_asthma_risk clfW ["High", "Low", "Moderate"]
        [1, 2, 3, 4, 5, 6, 7, 8, 9] =
      Except.error (PredictError.generic msg) :=
  C3_feature_mismatch_amended clfW ["High", "Low", "Moderate"]
    [1, 2, 3, 4, 5, 6, 7, 8, 9] rfl (by decide)

/-! ### Explanations (`get_xai_explanation`, ml_model/xai_explainer.py) -/

/-- A method slot of the returned explanations dict: either a populated
attribution payload or the error payload built by the per-method handler
(a dict carrying an `error` key). -/
inductive Slot
  | payload (attributions : List (String × ℚ))
  | errorPayload (msg : String)
deriving DecidableEq

/-- Environment of one `get_xai_explanation` call: whether `load_model`
inside `XAIExplainer.__init__` (lines 16-21) succeeds, and the outcome of
each method's try body on a feature vector — `ok` with the attributions, or
the message of the exception the body raises.  A failure to construct a
per-method sub-explainer is included here: `initialize_shap`/`initialize_lime`
swallow their own errors and leave the explainer `None`, on which the body
then raises, so it surfaces as an `error` outcome of that body. -/
structure XaiEnv where
  loadOk : Bool
  shapBody : List ℚ → Except String (List (String × ℚ))
  limeBody : List ℚ → Except String (List (String × ℚ))

/-- The mapping returned by `get_xai_explanation`: the two optional method
slots, plus the top-level `error` key written by the outer handler
(lines 167-168) when the body of `get_xai_explanation` itself raises. -/
structure Explanations where
  shapSlot : Option Slot
  limeSlot : Option Slot
  topError : Option String
deriving DecidableEq

/-- `XAIExplainer.explain_shap` (lines 66-99): the entire body runs inside
`try`; an exception is converted to an error payload, never propagated. -/
def explain_shap (env : XaiEnv) (features : List ℚ) : Slot :=
  match env.shapBody features with
  | Except.ok a => Slot.payload a
  | Except.error m => Slot.errorPayload ("SHAP explanation failed: " ++ m)

/-- `XAIExplainer.explain_lime` (lines 101-138): same handling as SHAP. -/
def explain_lime (env : XaiEnv) (features : List ℚ) : Slot :=
  match env.limeBody features with
  | Except.ok a => Slot.payload a
  | Except.error m => Slot.errorPayload ("LIME explanation failed: " ++ m)

/-- `get_xai_explanation` (lines 140-168): construct `XAIExplainer()` —
whose `__init__` raises when `load_model` fails, caught by the outer
handler to return a mapping holding only an `error` key — then fill the
`shap` slot when `method in ["shap", "both"]` and the `lime` slot when
`method in ["lime", "both"]`. -/
def get_xai_explanation (env : XaiEnv) (features : List ℚ) (method : String) :
    Explanations :=
  if env.loadOk = false then
    { shapSlot := none, limeSlot := none,
      topError := some "XAI explanation failed: model files not found" }
  else
    { shapSlot :=
        if method = "shap" ∨ method = "both" then some (explain_shap env features)
        else none,
      limeSlot :=
        if method = "lime" ∨ method = "both" then some (explain_lime env features)
        else none,
      topError := none }

/-- The environment in which the model artifacts fail to load, so
`XAIExplainer.__init__` raises. -/
def envLoadFail : XaiEnv :=
  ⟨false, fun _ => Except.ok [], fun _ => Except.ok []⟩

/-- C4 counterexample: when constructing the explainer fails (model
artifacts absent — the repository ships none), `explain(..., 'both')`
returns a mapping with no `shap` slot and no `lime` slot, only a top-level
error key, contradicting the claim that both slots are always present. -/
theorem C4_both_slots_counterexample :
    (get_xai_explanation envLoadFail [0, 0, 0, 0, 0, 0, 0, 0, 0, 0] "both").shapSlot
        = none ∧
    (get_xai_explanation envLoadFail [0, 0, 0, 0, 0, 0, 0, 0, 0, 0] "both").limeSlot
        = none ∧
    (get_xai_explanation envLoadFail [0, 0, 0, 0, 0, 0, 0, 0, 0, 0] "both").topError
        ≠ none := by
  refine ⟨rfl, rfl, by decide⟩

/-- C4 amended: provided the explainer constructs successfully (the model
artifacts load), `explain(..., 'both')` always returns both a `shap` and a
`lime` slot, each determined only by its own method's outcome — a payload
on success, an error payload on failure — so one method's failure never
removes or blocks the other's slot; and no exception ever propagates (the
function is total): when construction itself fails the call still returns,
with a mapping holding only a top-level error key and neither slot. -/
theorem C4_both_slots_amended (env : XaiEnv) (features : List ℚ) :
    (env.loadOk = true →
      (get_xai_explanation env features "both").shapSlot =
          some (explain_shap env features) ∧
      (get_xai_explanation env features "both").limeSlot =
          some (explain_lime env features) ∧
      (∀ a, env.shapBody features = Except.ok a →
        explain_shap env features = Slot.payload a) ∧
      (∀ m, env.shapBody features = Except.error m →
        explain_shap env features =
          Slot.errorPayload ("SHAP explanation failed: " ++ m)) ∧
      (∀ a, env.limeBody features = Except.ok a →
        explain_lime env features = Slot.payload a) ∧
      (∀ m, env.limeBody features = Except.error m →
        explain_lime env features =
          Slot.errorPayload ("LIME explanation failed: " ++ m))) ∧
    (env.loadOk = false →
      get_xai_explanation env features "both" =
        { shapSlot := none, limeSlot := none,
          topError := some "XAI explanation failed: model files not found" }) := by
  constructor
  · intro h
    refine ⟨by simp [get_xai_explanation, h], by simp [get_xai_explanation, h],
      ?_, ?_, ?_, ?_⟩
    · intro a ha; simp [explain_shap, ha]
    · intro m hm; simp [explain_shap, hm]
    · intro a ha; simp [explain_lime, ha]
    · intro m hm; simp [explain_lime, hm]
  · intro h
    simp [get_xai_explanation, h]

/-- The environment of the C4 witness: artifacts load, the SHAP body raises
while the LIME body succeeds. -/
def envShapFails : XaiEnv :=
  ⟨true, fun _ => Except.error "boom", fun _ => Except.ok [("pm25", 1)]⟩

/-- Witness for C4 amended: with SHAP failing and LIME succeeding, both
slots are present — the SHAP failure does not block the LIME slot. -/
theorem C4_both_slots_amended_witness :
    (get_xai_explanation envShapFails [0] "both").shapSlot =
        some (explain_shap envShapFails [0]) ∧
    (get_xai_explanation envShapFails [0] "both").limeSlot =
        some (explain_lime envShapFails [0]) :=
  ⟨((C4_both_slots_amended envShapFails [0]).1 rfl).1,
   ((C4_both_slots_amended envShapFails [0]).1 rfl).2.1⟩

/-- C10 counterexample: with the method name `additive` (outside the
recognized set) and the explainer failing to construct, the returned
mapping is not empty — it carries the top-level error key. -/
theorem C10_unrecognized_method_counterexample :
    (get_xai_explanation envLoadFail [1, 2, 3] "additive").topError =
      some "XAI explanation failed: model files not found" ∧
    get_xai_explanation envLoadFail [1, 2, 3] "additive" ≠
      { shapSlot := none, limeSlot := none, topError := none } := by
  refine ⟨rfl, by decide⟩

/-- C10 amended: for every method argument outside `shap`/`lime`/`both`
(including the names `additive` and `surrogate`), the entry point returns
the empty mapping — no slots and no error key — provided the explainer
constructs successfully; when construction fails, the mapping instead
carries only the top-level error key. -/
theorem C10_unrecognized_method_amended (env : XaiEnv) (features : List ℚ)
    (method : String) (h1 : method ≠ "shap") (h2 : method ≠ "lime")
    (h3 : method ≠ "both") :
    (env.loadOk = true →
      get_xai_explanation env features method =
        { shapSlot := none, limeSlot := none, topError := none }) ∧
    (env.loadOk = false →
      get_xai_explanation env features method =
        { shapSlot := none, limeSlot := none,
          topError := some "XAI explanation failed: model files not found" }) := by
  constructor <;> intro h <;> simp [get_xai_explanation, h, h1, h2, h3]

/-- The environment of the C10 witness: artifacts load and both bodies
succeed. -/
def envBothOk : XaiEnv :=
  ⟨true, fun _ => Except.ok [], fun _ => Except.ok []⟩

/-- Witness for C10 amended at the spec's own method name `additive`. -/
theorem C10_unrecognized_method_amended_witness :
    get_xai_explanation envBothOk [0] "additive" =
      { shapSlot := none, limeSlot := none, topError := none } :=
  (C10_unrecognized_method_amended envBothOk [0] "additive" (by decide)
    (by decide) (by decide)).1 rfl

end AsthmaShield
